import Mathlib

/-!
Verification of the Stablecash-DeFi/Logger repository.

Python floats are modelled as exact rationals (ℚ); `float(f'{x:.6f}')`
becomes `round6`.  Python dicts indexed by strings become association
lists with `dictFind` (a missing key, a `KeyError` in the source, is
`none`, so fallible code returns `Option`).  Division by a zero rate,
a `ZeroDivisionError` in Python, is total in ℚ; no claim exercises it.
-/

namespace Logger

/-- Python `float(f'{x:.6f}')`: keep 6 decimal digits.  Ties (which the
claims never exercise) follow Mathlib's `round`. -/
def round6 (q : ℚ) : ℚ := (round (q * 1000000) : ℤ) / 1000000

/-- Python dict lookup `m[k]`: `none` models the `KeyError` on a missing key. -/
def dictFind [BEq κ] (m : List (κ × α)) (k : κ) : Option α :=
  (m.find? (fun p => p.1 == k)).map (fun p => p.2)

/-- Python dict assignment `m[k] = v`: overwrite in place, else append. -/
def store [BEq κ] (m : List (κ × α)) (k : κ) (v : α) : List (κ × α) :=
  if m.any (fun p => p.1 == k) then
    m.map (fun p => if p.1 == k then (k, v) else p)
  else
    m ++ [(k, v)]

/-- The slice-while-full loop shared by the Client's `main` export loops
(src/Client/app.py lines 259-268 and 275-286, threshold
`max_records`) and its compaction loops (lines 145-165 and 186-215,
threshold `num`): while at least `t` elements remain, slice off the
first `t` (one export/merge each) and continue on the rest; returns the
slices and the final remainder.  Python's `while` diverges when `t = 0`;
here the guard `0 < t` stops it instead (no claim exercises `t = 0`,
whose Python behaviour has no terminating value). -/
def exportLoop (t : Nat) (buf : List α) : List (List α) × List α :=
  if _h : 0 < t ∧ t ≤ buf.length then
    let rest := exportLoop t (buf.drop t)
    (buf.take t :: rest.1, rest.2)
  else ([], buf)
termination_by buf.length
decreasing_by simp [List.length_drop]; omega

/-- Python `name[:-1]`: drop the last character (empty stays empty). -/
def strInit (s : String) : String := String.mk s.data.dropLast

/-- Python `s[-3:]` (whole string when shorter than 3). -/
def last3 (s : String) : String := String.mk (s.data.drop (s.data.length - 3))

/-- Python `s.split(":")[0]`: the text before the first colon. -/
def firstSeg (s : String) : String := String.mk (s.data.takeWhile (fun c => c ≠ ':'))

end Logger

namespace Server
/-! src/Server/app.py -/

open Logger

/-- `convert_market_rate(amount, from_currency, to_currency, fiat_prices)`,
src/Server/app.py lines 15-20.  Note: both branches index `fiat_prices`
with the currency that was just compared to "EUR", i.e. with the key
"EUR" itself. -/
def convert_market_rate (amount : ℚ) (from_currency to_currency : String)
    (fiat_prices : List (String × ℚ)) : Option ℚ :=
  if from_currency == "EUR" then
    (dictFind fiat_prices from_currency).map (fun r => amount * r)
  else if to_currency == "EUR" then
    (dictFind fiat_prices to_currency).map (fun r => amount / r)
  else
    some amount

/-- `rentability(amount, from_currency, to_currency, fiat_prices, rate)`,
src/Server/app.py lines 22-29. -/
def rentability (amount : ℚ) (from_currency to_currency : String)
    (fiat_prices : List (String × ℚ)) (rate : ℚ) : Option ℚ :=
  let swap_gain := amount * rate - amount
  let step1 : Option ℚ :=
    if (from_currency == "EUR" && to_currency != "EUR")
        || (to_currency == "EUR" && from_currency != "EUR") then
      match convert_market_rate amount from_currency to_currency fiat_prices with
      | none => none
      | some m =>
        convert_market_rate (amount * rate - m) to_currency "USD" fiat_prices
    else some swap_gain
  match step1 with
  | none => none
  | some sg =>
    if from_currency == "EUR" && to_currency == "EUR" then
      convert_market_rate sg from_currency "USD" fiat_prices
    else some sg

/-- One balance-line dict `{i: wallet[i] for i in wallet if i.split(":")[0] == chain}`
(src/Server/app.py lines 35-36, the inner comprehension). -/
def chainSub (wallet : List (String × ℚ)) (chain : String) : List (String × ℚ) :=
  wallet.filter (fun p => firstSeg p.1 == chain)

/-- The EUR sum of one chain (src/Server/app.py line 35). -/
def eurSum (wallet : List (String × ℚ)) (chain : String) : ℚ :=
  (((chainSub wallet chain).filter (fun p => last3 p.1 == "EUR")).map (fun p => p.2)).sum

/-- The USD sum of one chain (src/Server/app.py line 36). -/
def usdSum (wallet : List (String × ℚ)) (chain : String) : ℚ :=
  (((chainSub wallet chain).filter (fun p => last3 p.1 == "USD")).map (fun p => p.2)).sum

/-- One entry of `ret["by_chain"]` (keys "EUR", "USD", "total"). -/
structure ChainVal where
  eur : ℚ
  usd : ℚ
  total : ℚ
deriving DecidableEq

/-- The return value of `wallet_value`: `by_chain` always holds exactly the
two supported chains "137" and "solana". -/
structure WalletValuation where
  chain137 : ChainVal
  solana : ChainVal
  total : ℚ
deriving DecidableEq

/-- `wallet_value(wallet, fiat_prices)`, src/Server/app.py lines 31-41.
The loop over `["137", "solana"]` is unrolled; `ret["total"]` starts at 0
and accumulates the per-chain totals, with no rounding anywhere. -/
def wallet_value (wallet : List (String × ℚ)) (fiat_prices : List (String × ℚ)) :
    Option WalletValuation := do
  let e137 := eurSum wallet "137"
  let u137 := usdSum wallet "137"
  let c137 ← convert_market_rate e137 "EUR" "USD" fiat_prices
  let t137 := u137 + c137
  let esol := eurSum wallet "solana"
  let usol := usdSum wallet "solana"
  let csol ← convert_market_rate esol "EUR" "USD" fiat_prices
  let tsol := usol + csol
  return ⟨⟨e137, u137, t137⟩, ⟨esol, usol, tsol⟩, 0 + t137 + tsol⟩

/-- One gas/fee cost line item: only its `amountUsd` field is read
(src/Server/app.py lines 59-60). -/
structure CostItem where
  amountUsd : ℚ
deriving DecidableEq

/-- `data[i]["trade"]["swapConfig"]` as read by `receive_json`.
`fiatPrices` is a dict; only its "USD" entry is ever read (line 84). -/
structure SwapConfig where
  fromAmount : ℤ
  toAmount : ℤ
  fromDigits : ℕ
  toDigits : ℕ
  gasCosts : List CostItem
  feeCosts : List CostItem
  transactionCost : ℚ
  exchangeRate : ℚ
  fiatPrices : List (String × ℚ)
deriving DecidableEq

/-- One leg of `data[i]["trade"]["pair"]` (fields read at lines 62-63). -/
structure PairLeg where
  chain : String
  token : String
  currency : String
deriving DecidableEq

/-- `data[i]["trade"]["pair"]`; `from` is a Lean keyword, hence `from_`/`to_`. -/
structure TradePair where
  from_ : PairLeg
  to_ : PairLeg
deriving DecidableEq

/-- `data[i]["trade"]`. -/
structure TradeRaw where
  swapConfig : SwapConfig
  pair : TradePair
  solanaPrice : ℚ
  maticPrice : ℚ
deriving DecidableEq

/-- One entry of `data[i]["wallet"]` (fields read at lines 67-68). -/
structure WalletEntry where
  chain : String
  address : String
  currency : String
  amount : ℚ
deriving DecidableEq

/-- One element of the inbound batch.  A payload whose required "trade" or
"wallet" key is missing (a `KeyError` in the source) is modelled by `none`. -/
structure RawItem where
  trade : Option TradeRaw
  wallet : Option (List WalletEntry)
deriving DecidableEq

/-- `d["cost"]` of the canonical trade record (lines 72-76). -/
structure CostInfo where
  gas : List ℚ
  fee : List ℚ
  total : ℚ
deriving DecidableEq

/-- `d["exchange"]` (lines 77-81). -/
structure ExchangeInfo where
  rate : ℚ
  from_ : String
  to_ : String
deriving DecidableEq

/-- The canonical trade record `d` (lines 71-98).  `price` is the dict
`{"USD": 1.00, "EUR": fiatPrices["USD"], "SOL": ..., "MAT": ...}`. -/
structure TradeDoc where
  cost : CostInfo
  exchange : ExchangeInfo
  price : List (String × ℚ)
  rentability : ℚ
  timestamp : ℤ
deriving DecidableEq

/-- `wallet["data"]` (lines 102-105). -/
structure WalletData where
  stable_coins : List (String × ℚ)
  value : WalletValuation
deriving DecidableEq

/-- The stored wallet document (lines 100-109); `_id` is
`hashlib.sha256(str(wallet["data"]).encode()).hexdigest()`. -/
structure WalletDoc where
  _id : String
  data : WalletData
  timestamp : ℤ
deriving DecidableEq

/-- The normalization of one batch element, src/Server/app.py lines 55-109.
`H` stands for the external hash `hashlib.sha256(str(·)).hexdigest()`
applied to the wallet's `data` payload; `dt` is the request timestamp.
The scaled `fromAmount`/`toAmount` are computed (lines 55-58) but do not
appear in the canonical record `d`. -/
def normalizeItem (H : WalletData → String) (dt : ℤ) (item : RawItem) :
    Option (TradeDoc × WalletDoc) := do
  let trade ← item.trade
  let wrows ← item.wallet
  let sc := trade.swapConfig
  let _fromAmount : ℚ := (sc.fromAmount : ℚ) / ((10 : ℚ) ^ sc.fromDigits)
  let _toAmount : ℚ := (sc.toAmount : ℚ) / ((10 : ℚ) ^ sc.toDigits)
  let gas := sc.gasCosts.map (fun c => Logger.round6 c.amountUsd)
  let fee := sc.feeCosts.map (fun c => Logger.round6 c.amountUsd)
  let fromId := trade.pair.from_.chain ++ ":" ++ trade.pair.from_.token ++ ":"
      ++ trade.pair.from_.currency
  let toId := trade.pair.to_.chain ++ ":" ++ trade.pair.to_.token ++ ":"
      ++ trade.pair.to_.currency
  let REF := wrows.foldl
    (fun m e =>
      Logger.store m (e.chain ++ ":" ++ e.address ++ ":" ++ e.currency)
        (Logger.round6 e.amount)) []
  let priceEUR ← Logger.dictFind sc.fiatPrices "USD"
  let price : List (String × ℚ) :=
    [("USD", 1), ("EUR", priceEUR), ("SOL", trade.solanaPrice), ("MAT", trade.maticPrice)]
  let rate := Logger.round6 sc.exchangeRate
  let renta ← rentability 100 (Logger.last3 fromId) (Logger.last3 toId) price rate
  let value ← wallet_value REF price
  let wdata : WalletData := ⟨REF, value⟩
  return (⟨⟨gas, fee, sc.transactionCost⟩, ⟨rate, fromId, toId⟩, price,
            Logger.round6 renta, dt⟩,
          ⟨H wdata, wdata, dt⟩)

/-- The per-item loop of `receive_json` (lines 54-112): each item is
normalized and its two documents are inserted immediately; the first
failing item aborts the request (`false` = the 500 response) leaving the
documents already inserted in place. -/
def receiveLoop (H : WalletData → String) (dt : ℤ) :
    List RawItem → List TradeDoc × List WalletDoc →
    (List TradeDoc × List WalletDoc) × Bool
  | [], db => (db, true)
  | item :: rest, db =>
    match normalizeItem H dt item with
    | none => (db, false)
    | some (d, w) => receiveLoop H dt rest (db.1 ++ [d], db.2 ++ [w])

/-- The documents produced by the items before the first malformed one. -/
def okDocs (H : WalletData → String) (dt : ℤ) (items : List RawItem) :
    List (TradeDoc × WalletDoc) :=
  ((items.map (normalizeItem H dt)).takeWhile Option.isSome).reduceOption

/-- The two Mongo collections of the Server (each document stored under
its `json_data` wrapper, which `get_all_json` unwraps again). -/
structure SrvDb where
  trades : List TradeDoc
  wallets : List WalletDoc
deriving DecidableEq

/-- The body returned by the GET endpoint (lines 135-142). -/
structure GetResult where
  sizeTrades : ℕ
  sizeWallets : ℕ
  dataTrades : List TradeDoc
  dataWallets : List WalletDoc
deriving DecidableEq

/-- `get_all_json`, src/Server/app.py lines 118-143: on a bad token the
state is untouched and 401 is returned (`none`); otherwise all documents
of both collections are collected, both collections are emptied, and the
records are returned with their counts. -/
def get_all_json (authorized : Bool) (db : SrvDb) : SrvDb × Option GetResult :=
  if authorized then
    (⟨[], []⟩, some ⟨db.trades.length, db.wallets.length, db.trades, db.wallets⟩)
  else
    (db, none)

/-- A stand-in for `hashlib.sha256(str(·)).hexdigest()` used only to
instantiate theorems at concrete inputs; the facts proved about
`receiveLoop` hold for every hash function `H`. -/
def hashStub : WalletData → String := fun _ => "h"

/-- A well-formed batch element (normalizes successfully). -/
def goodItem : RawItem where
  trade := some
    { swapConfig :=
        { fromAmount := 1000000, toAmount := 2000000, fromDigits := 6, toDigits := 6,
          gasCosts := [⟨1/2⟩], feeCosts := [], transactionCost := 1,
          exchangeRate := 1, fiatPrices := [("USD", 1)] },
      pair := { from_ := ⟨"137", "tok", "USD"⟩, to_ := ⟨"137", "tok", "USD"⟩ },
      solanaPrice := 1, maticPrice := 1 }
  wallet := some [⟨"137", "0xA", "EUR", 10⟩]

/-- A malformed batch element: its required "trade" payload is missing. -/
def badItem : RawItem where
  trade := none
  wallet := some []

end Server

namespace Exposer
/-! src/Exposer/app.py -/

open Logger

/-- `CurrencyConverter.convert(amount, from_currency, to_currency)`,
src/Exposer/app.py lines 28-43 (`self.fiat_prices` passed explicitly). -/
def CurrencyConverter.convert (fiat_prices : List (String × ℚ)) (amount : ℚ)
    (from_currency to_currency : String) : Option ℚ :=
  if from_currency == to_currency then
    some amount
  else if from_currency == "EUR" then
    (dictFind fiat_prices to_currency).map (fun r => amount * r)
  else if to_currency == "EUR" then
    (dictFind fiat_prices from_currency).map (fun r => amount / r)
  else
    some amount

end Exposer

namespace Client
/-! src/Client/app.py -/

open Logger

/-- The group size of one compaction run, src/Client/app.py lines
136-142 (identically lines 178-184): 10, except that drain mode
(`keep_going == 'force'`) replaces it by the current file count; the
result is clamped into 1..10 once, before the loop. -/
def compactNum (force : Bool) (fileCount : Nat) : Nat :=
  let num := if force then fileCount else 10
  let num := if num < 1 then 1 else num
  if num > 10 then 10 else num

/-- The grouping behaviour of `compact_csv_files`, src/Client/app.py
lines 127-167: the discovered files are merged `compactNum` at a time
while at least that many remain.  First component: the merged groups
(each one written as a `..._combined.csv` and its inputs deleted);
second component: the files left un-merged. -/
def compact_csv_files (force : Bool) (files : List α) : List (List α) × List α :=
  exportLoop (compactNum force files.length) files

/-- A JSON value as traversed by `CSVConverter.flatten_json`,
src/Client/app.py lines 77-106 (the same function appears as
`CSVExporter.flatten_json`, src/Compacter/app.py lines 38-67).  Scalar
payloads are kept opaque as strings: only the path structure matters to
the claims about flattening. -/
inductive JValue where
  | scalar (v : String)
  | arr (items : List JValue)
  | obj (fields : List (String × JValue))

mutual
/-- The recursive helper `flatten(x, name)`: a scalar is emitted under
the accumulated path with its trailing "." stripped. -/
def flattenV : JValue → String → List (String × String)
  | .scalar v, name => [(Logger.strInit name, v)]
  | .arr xs, name => flattenArr xs 0 name
  | .obj fs, name => flattenObj fs name
/-- `flatten` over a list: positional indices become path segments. -/
def flattenArr : List JValue → Nat → String → List (String × String)
  | [], _, _ => []
  | x :: xs, i, name =>
    flattenV x (name ++ toString i ++ ".") ++ flattenArr xs (i + 1) name
/-- `flatten` over the fields of an object: keys are joined with ".". -/
def flattenObj : List (String × JValue) → String → List (String × String)
  | [], _ => []
  | (k, v) :: fs, name => flattenV v (name ++ k ++ ".") ++ flattenObj fs name
end

/-- `CSVConverter.flatten_json(nested_json)`: the `out[name[:-1]] = x`
assignments accumulate into a Python dict, so a later duplicate path
overwrites in place. -/
def flatten_json (j : JValue) : List (String × String) :=
  (flattenV j "").foldl (fun m kv => Logger.store m kv.1 kv.2) []

/-- The set of flattened column names of a batch
(`fieldnames.update(record.keys())`, src/Client/app.py lines 118-120),
listed in first-occurrence order; Python iterates it as a `set`, whose
order the source leaves unspecified. -/
def unionKeys (json_data : List JValue) : List String :=
  ((json_data.map flatten_json).map (fun r => r.map Prod.fst)).flatten.dedup

/-- `CSVConverter.convert(json_data, csv_filename)`, src/Client/app.py
lines 109-125 (likewise `CSVExporter.export_to_csv_in_memory`,
src/Compacter/app.py lines 69-81): flatten every record, collect the
union of the flat keys as the fieldnames, then write the header row and
one row per record through `csv.DictWriter`, whose default
`restval=''` emits the empty value — modelled as `none` — for every
field missing from a record.  `order` stands for the iteration order of
the Python `set` of fieldnames, which the source does not sort. -/
def CSVConverter.convert (order : List String) (json_data : List JValue) :
    List String × List (List (Option String)) :=
  let flat_data := json_data.map flatten_json
  (order, flat_data.map (fun record => order.map (fun f => Logger.dictFind record f)))

/-- The filesystem names probed and written by `very_compact_csv_files`,
src/Client/app.py lines 193-203: the merged compact file
`{prefix}_{date_id}[_{n}]_compact.csv` and the archive
`archive_{date_id}[_{n}].zip`; index `n = 0` is the unsuffixed base
name, the common directory part is omitted, and `other` covers every
unrelated path.  The constructors make the injectivity of the name
format explicit. -/
inductive FsName where
  | compactCsv (pfx dateId : String) (n : Nat)
  | archiveZip (dateId : String) (n : Nat)
  | other (s : String)
deriving DecidableEq

/-- `os.path.exists(combined_csv) or os.path.exists(zip_path)` for probe
index `n` (src/Client/app.py line 198). -/
def nameHit (fs : List FsName) (pfx dateId : String) (n : Nat) : Bool :=
  fs.contains (FsName.compactCsv pfx dateId n)
    || fs.contains (FsName.archiveZip dateId n)

/-- The probing loop of lines 197-203 (`n += 1` while either name
exists), fuelled: one plus the number of existing files is enough fuel
to reach a free index. -/
def probeAux (fs : List FsName) (pfx dateId : String) : Nat → Nat → Nat
  | 0, n => n
  | fuel + 1, n =>
    if nameHit fs pfx dateId n then probeAux fs pfx dateId fuel (n + 1) else n

/-- The name index a merge step uses: in force (drain) mode the loop
guard `keep_going != 'force'` skips probing entirely and the base names
are used; otherwise the first free index is taken. -/
def probeIndex (fs : List FsName) (pfx dateId : String) (force : Bool) : Nat :=
  if force then 0 else probeAux fs pfx dateId (fs.length + 1) 0

/-- Whether a name is one of the probed names with index at least `n`
(used to measure the probing loop). -/
def probeGe (pfx dateId : String) (n : Nat) : FsName → Bool
  | .compactCsv p d m => p == pfx && d == dateId && decide (n ≤ m)
  | .archiveZip d m => d == dateId && decide (n ≤ m)
  | .other _ => false

/-- Whether a name is one of the probed names with index exactly `n`. -/
def probeEq (pfx dateId : String) (n : Nat) : FsName → Bool
  | .compactCsv p d m => p == pfx && d == dateId && decide (m = n)
  | .archiveZip d m => d == dateId && decide (m = n)
  | .other _ => false

/-- The filesystem as the archival step observes it: the existing paths
and the entry list of each zip archive. -/
structure Fs where
  files : List FsName
  zipContent : List (FsName × List FsName)
deriving DecidableEq

/-- A record of what one archival merge step did, for the claims. -/
structure StepLog where
  combinedCsv : FsName
  zipPath : FsName
  overwroteCsv : Bool
  zipAppended : Bool
deriving DecidableEq

/-- One iteration of the `very_compact_csv_files` while-loop,
src/Client/app.py lines 186-220, restricted to its filesystem effects
(the merged rows follow `CSVConverter.convert` and are not part of this
claim): choose the names (probing unless in force mode), write the
merged csv — `open(..., 'w')` truncates a pre-existing file, recorded in
`overwroteCsv` — add it to the zip with `mode = 'a'` iff the zip already
exists (`zipAppended`), then `os.remove` the merged csv. -/
def archiveStep (fs : Fs) (pfx dateId : String) (force : Bool) : Fs × StepLog :=
  let n := probeIndex fs.files pfx dateId force
  let csv := FsName.compactCsv pfx dateId n
  let zip := FsName.archiveZip dateId n
  let overwrote := fs.files.contains csv
  let files1 := if fs.files.contains csv then fs.files else fs.files ++ [csv]
  let zipExisted := files1.contains zip
  let oldEntries := (Logger.dictFind fs.zipContent zip).getD []
  let newEntries := if zipExisted then oldEntries ++ [csv] else [csv]
  let files2 := if zipExisted then files1 else files1 ++ [zip]
  let zc := Logger.store fs.zipContent zip newEntries
  let files3 := files2.filter (fun f => f != csv)
  (⟨files3, zc⟩, ⟨csv, zip, overwrote, zipExisted⟩)

end Client

namespace Compacter
/-! src/Compacter/app.py -/

/-- `DataExporter.export_data(export_limit)`, src/Compacter/app.py lines
106-120: only when strictly more than `export_limit` trade documents are
buffered, the first `export_limit` trades and wallets (in timestamp
order — the lists are modelled already sorted) are written into one zip
export and deleted; otherwise nothing happens.  Returns the remaining
collections and the number of export files written. -/
def DataExporter.export_data (export_limit : Nat) (trades : List α) (wallets : List β) :
    (List α × List β) × Nat :=
  if export_limit < trades.length then
    ((trades.drop export_limit, wallets.drop export_limit), 1)
  else
    ((trades, wallets), 0)

end Compacter

namespace Logger

/-- Claim C1: contract of the currency conversion.  `CurrencyConverter.convert`
(src/Exposer/app.py) behaves exactly as the claim states; the Server variant
`convert_market_rate` does not (see the counterexample): it has no
from-equals-to shortcut and reads the table entry "EUR" on both legs. -/
theorem c1_convert_spec :
    (∀ (fp : List (String × ℚ)) (a : ℚ) (f t : String), f = t →
       Exposer.CurrencyConverter.convert fp a f t = some a) ∧
    (∀ (fp : List (String × ℚ)) (a r : ℚ) (t : String), t ≠ "EUR" →
       dictFind fp t = some r →
       Exposer.CurrencyConverter.convert fp a "EUR" t = some (a * r)) ∧
    (∀ (fp : List (String × ℚ)) (a r : ℚ) (f : String), f ≠ "EUR" →
       dictFind fp f = some r →
       Exposer.CurrencyConverter.convert fp a f "EUR" = some (a / r)) ∧
    (∀ (fp : List (String × ℚ)) (a : ℚ) (f t : String), f ≠ "EUR" → t ≠ "EUR" →
       Exposer.CurrencyConverter.convert fp a f t = some a) ∧
    (∀ (fp : List (String × ℚ)) (a r : ℚ) (t : String),
       dictFind fp "EUR" = some r →
       Server.convert_market_rate a "EUR" t fp = some (a * r)) ∧
    (∀ (fp : List (String × ℚ)) (a r : ℚ) (f : String), f ≠ "EUR" →
       dictFind fp "EUR" = some r →
       Server.convert_market_rate a f "EUR" fp = some (a / r)) ∧
    (∀ (fp : List (String × ℚ)) (a : ℚ) (f t : String), f ≠ "EUR" → t ≠ "EUR" →
       Server.convert_market_rate a f t fp = some a) := by
  refine ⟨?_, ?_, ?_, ?_, ?_, ?_, ?_⟩
  · intro fp a f t h
    simp [Exposer.CurrencyConverter.convert, h]
  · intro fp a r t ht hr
    simp [Exposer.CurrencyConverter.convert, Ne.symm ht, hr]
  · intro fp a r f hf hr
    by_cases hft : f = "EUR"
    · exact absurd hft hf
    · simp [Exposer.CurrencyConverter.convert, hf, hr]
  · intro fp a f t hf ht
    by_cases hft : f = t
    · simp [Exposer.CurrencyConverter.convert, hft]
    · simp [Exposer.CurrencyConverter.convert, hft, hf, ht]
  · intro fp a r t hr
    simp [Server.convert_market_rate, hr]
  · intro fp a r f hf hr
    simp [Server.convert_market_rate, hf, hr]
  · intro fp a f t hf ht
    simp [Server.convert_market_rate, hf, ht]

/-- Witness for C1: the spec-conformant converter multiplies an EUR→USD
conversion by the "USD" entry of the rate table. -/
theorem c1_witness :
    Exposer.CurrencyConverter.convert [("USD", (3 : ℚ))] 2 "EUR" "USD" = some 6 := by
  have h := c1_convert_spec.2.1 [("USD", (3 : ℚ))] 2 3 "USD" (by decide)
    (by simp [dictFind])
  rw [h]
  norm_num

/-- Counterexample for C1: on the Server variant `convert_market_rate`,
converting out of EUR multiplies by the rate stored under "EUR", not by
`rates[to]` as the claim states (here `rates["USD"] = 3` yet the result
is `1 * 2`). -/
theorem c1_counterexample :
    Server.convert_market_rate 1 "EUR" "USD" [("EUR", (2 : ℚ)), ("USD", 3)] = some 2 ∧
    dictFind [("EUR", (2 : ℚ)), ("USD", 3)] "USD" = some 3 ∧
    (2 : ℚ) ≠ 1 * 3 := by
  refine ⟨?_, ?_, by norm_num⟩
  · simp [Server.convert_market_rate, dictFind]
  · simp [dictFind]

theorem exportLoop_join (t : Nat) (buf : List α) :
    ((exportLoop t buf).1).flatten ++ (exportLoop t buf).2 = buf := by
  induction buf using exportLoop.induct t with
  | case1 buf h ih =>
    rw [exportLoop, dif_pos h]
    simp only [List.flatten_cons, List.append_assoc]
    rw [ih, List.take_append_drop]
  | case2 buf h =>
    rw [exportLoop, dif_neg h]
    simp

theorem exportLoop_count (t : Nat) (buf : List α) :
    (exportLoop t buf).1.length = buf.length / t := by
  induction buf using exportLoop.induct t with
  | case1 buf h ih =>
    rw [exportLoop, dif_pos h]
    simp only [List.length_cons]
    rw [ih, List.length_drop]
    rw [Nat.div_eq_sub_div h.1 h.2]
  | case2 buf h =>
    rw [exportLoop, dif_neg h]
    rcases Nat.eq_zero_or_pos t with ht | ht
    · simp [ht, Nat.div_zero]
    · have hlt : buf.length < t := by omega
      simp [Nat.div_eq_of_lt hlt]

theorem exportLoop_rem (t : Nat) (buf : List α) :
    (exportLoop t buf).2.length = buf.length % t := by
  induction buf using exportLoop.induct t with
  | case1 buf h ih =>
    rw [exportLoop, dif_pos h]
    rw [ih, List.length_drop, Nat.mod_eq_sub_mod h.2]
  | case2 buf h =>
    rw [exportLoop, dif_neg h]
    rcases Nat.eq_zero_or_pos t with ht | ht
    · simp [ht]
    · have hlt : buf.length < t := by omega
      simp [Nat.mod_eq_of_lt hlt]

theorem exportLoop_sizes (t : Nat) (buf : List α) :
    ∀ g ∈ (exportLoop t buf).1, g.length = t := by
  induction buf using exportLoop.induct t with
  | case1 buf h ih =>
    rw [exportLoop, dif_pos h]
    intro g hg
    rcases List.mem_cons.mp hg with hg | hg
    · subst hg
      exact List.length_take_of_le h.2
    · exact ih g hg
  | case2 buf h =>
    rw [exportLoop, dif_neg h]
    intro g hg
    simp at hg

theorem exportLoop_of_lt (t : Nat) (buf : List α) (h : buf.length < t) :
    exportLoop t buf = ([], buf) := by
  rw [exportLoop, dif_neg]
  omega

theorem exportLoop_all (buf : List α) (h : 0 < buf.length) :
    exportLoop buf.length buf = ([buf], []) := by
  rw [exportLoop, dif_pos ⟨h, le_refl _⟩]
  rw [List.drop_length, exportLoop_of_lt _ _ (by simpa using h)]
  simp

theorem compactNum_false (k : Nat) : Client.compactNum false k = 10 := by
  simp [Client.compactNum]

theorem compactNum_true_le (k : Nat) (h0 : 0 < k) (h10 : k ≤ 10) :
    Client.compactNum true k = k := by
  simp only [Client.compactNum]
  split_ifs <;> omega

theorem compactNum_true_gt (k : Nat) (h : 10 < k) : Client.compactNum true k = 10 := by
  simp only [Client.compactNum]
  split_ifs <;> omega

theorem dictFind_store [BEq κ] [LawfulBEq κ] (m : List (κ × α)) (k : κ) (v : α) :
    dictFind (store m k v) k = some v := by
  rw [store]
  split_ifs with h
  · induction m with
    | nil => simp at h
    | cons a m ih =>
      by_cases ha : (a.1 == k) = true
      · simp only [List.map_cons, if_pos ha, dictFind]
        rw [List.find?_cons_of_pos _ (by simp)]
        simp
      · simp only [List.any_cons, ha, Bool.false_or] at h
        simp only [List.map_cons, if_neg ha, dictFind]
        rw [List.find?_cons_of_neg _ (by simpa using ha)]
        exact ih h
  · induction m with
    | nil => simp [dictFind]
    | cons a m ih =>
      simp only [List.any_cons, Bool.or_eq_true, not_or] at h
      simp only [List.cons_append, dictFind]
      rw [List.find?_cons_of_neg _ (by simpa using h.1)]
      exact ih (by simpa using h.2)

theorem dictFind_eq_none_iff [BEq κ] [LawfulBEq κ] (m : List (κ × α)) (k : κ) :
    dictFind m k = none ↔ k ∉ m.map Prod.fst := by
  rw [dictFind, Option.map_eq_none', List.find?_eq_none]
  constructor
  · intro h hk
    obtain ⟨p, hp, hpk⟩ := List.mem_map.mp hk
    exact absurd (by simp [hpk]) (h p hp)
  · intro h p hp
    by_cases hpk : p.1 = k
    · exact absurd (List.mem_map.mpr ⟨p, hp, hpk⟩) h
    · simpa using hpk

theorem dictFind_mem [BEq κ] [LawfulBEq κ] (m : List (κ × α)) (k : κ) (v : α)
    (h : dictFind m k = some v) : (k, v) ∈ m := by
  rw [dictFind, Option.map_eq_some'] at h
  obtain ⟨p, hp, hpv⟩ := h
  have h1 := List.find?_some hp
  have h2 := List.mem_of_find?_eq_some hp
  have : p = (k, v) := by
    rcases p with ⟨pk, pv⟩
    simp at h1 hpv
    simp [h1, hpv]
  rwa [this] at h2

theorem countP_probe_split (fs : List Client.FsName) (pfx dateId : String) (n : Nat) :
    fs.countP (Client.probeGe pfx dateId n) =
      fs.countP (Client.probeEq pfx dateId n)
        + fs.countP (Client.probeGe pfx dateId (n + 1)) := by
  induction fs with
  | nil => simp
  | cons f fs ih =>
    simp only [List.countP_cons, ih]
    rcases f with ⟨p, d, m⟩ | ⟨d, m⟩ | s
    · simp only [Client.probeGe, Client.probeEq]
      by_cases h1 : (p == pfx) = true <;> by_cases h2 : (d == dateId) = true <;>
        simp [h1, h2] <;> split_ifs <;> omega
    · simp only [Client.probeGe, Client.probeEq]
      by_cases h2 : (d == dateId) = true <;>
        simp [h2] <;> split_ifs <;> omega
    · simp [Client.probeGe, Client.probeEq]

theorem hit_countEq (fs : List Client.FsName) (pfx dateId : String) (n : Nat)
    (h : Client.nameHit fs pfx dateId n = true) :
    0 < fs.countP (Client.probeEq pfx dateId n) := by
  rw [List.countP_pos_iff]
  rcases Bool.or_eq_true _ _ |>.mp h with h | h
  · exact ⟨_, by simpa using h, by simp [Client.probeEq]⟩
  · exact ⟨_, by simpa using h, by simp [Client.probeEq]⟩

theorem probeAux_free (fs : List Client.FsName) (pfx dateId : String) :
    ∀ (fuel n : Nat), fs.countP (Client.probeGe pfx dateId n) < fuel →
      Client.nameHit fs pfx dateId (Client.probeAux fs pfx dateId fuel n) = false := by
  intro fuel
  induction fuel with
  | zero =>
    intro n h
    omega
  | succ fuel ih =>
    intro n h
    rw [Client.probeAux]
    by_cases hh : Client.nameHit fs pfx dateId n = true
    · rw [if_pos hh]
      apply ih
      have hsplit := countP_probe_split fs pfx dateId n
      have hpos := hit_countEq fs pfx dateId n hh
      omega
    · rw [if_neg hh]
      simpa using hh

theorem probeIndex_free (fs : List Client.FsName) (pfx dateId : String) :
    Client.nameHit fs pfx dateId (Client.probeIndex fs pfx dateId false) = false := by
  rw [Client.probeIndex, if_neg (by simp)]
  apply probeAux_free
  have := List.countP_le_length (Client.probeGe pfx dateId 0) (l := fs)
  omega

/-- Claim C2 (amended): with `convert` being the Server's
`convert_market_rate` (which reads the table entry "EUR" on both EUR
legs), `rentability` applies the market comparison whenever exactly one
of the two currencies is "EUR" — not only for the (EUR,USD)/(USD,EUR)
pairs; an EUR→EUR swap converts the default gain into USD; every pair
with no EUR leg gets the default gain `100*rate - 100`; the 6-decimal
rounding is applied by the caller `receive_json` to the returned value;
and the spec's example needs the EUR→USD rate stored under key "EUR". -/
theorem c2_rentability_spec :
    (∀ (fp : List (String × ℚ)) (r : ℚ) (fc tc : String),
       (fc = "EUR" ∧ tc ≠ "EUR") ∨ (tc = "EUR" ∧ fc ≠ "EUR") →
       Server.rentability 100 fc tc fp r =
         (Server.convert_market_rate 100 fc tc fp).bind
           (fun m => Server.convert_market_rate (100 * r - m) tc "USD" fp)) ∧
    (∀ (fp : List (String × ℚ)) (r : ℚ),
       Server.rentability 100 "EUR" "EUR" fp r =
         (dictFind fp "EUR").map (fun p => (100 * r - 100) * p)) ∧
    (∀ (fp : List (String × ℚ)) (r : ℚ) (fc tc : String),
       fc ≠ "EUR" → tc ≠ "EUR" →
       Server.rentability 100 fc tc fp r = some (100 * r - 100)) ∧
    (Server.rentability 100 "EUR" "USD" [("EUR", 11/10), ("USD", 1)] (51/50) =
       some (-8) ∧ round6 (-8) = -8) ∧
    (∀ (H : Server.WalletData → String) (dt : ℤ) (item : Server.RawItem)
       (d : Server.TradeDoc) (w : Server.WalletDoc),
       Server.normalizeItem H dt item = some (d, w) →
       ∃ raw, Server.rentability 100 (last3 d.exchange.from_) (last3 d.exchange.to_)
                d.price d.exchange.rate = some raw ∧
              d.rentability = round6 raw) := by
  refine ⟨?_, ?_, ?_, ⟨?_, ?_⟩, ?_⟩
  · intro fp r fc tc h
    rcases h with ⟨h1, h2⟩ | ⟨h1, h2⟩
    · subst h1
      simp only [Server.rentability]
      have hb : (tc != "EUR") = true := by simpa using h2
      simp [hb]
      cases hm : Server.convert_market_rate 100 "EUR" tc fp with
      | none => simp
      | some m =>
        simp [h2]
        cases Server.convert_market_rate (100 * r - m) tc "USD" fp <;> rfl
    · subst h1
      have hb : (fc != "EUR") = true := by simpa using h2
      have hb2 : (fc == "EUR") = false := by simpa using h2
      simp only [Server.rentability]
      simp [hb, hb2]
      cases hm : Server.convert_market_rate 100 fc "EUR" fp with
      | none => simp
      | some m =>
        simp [hb2]
        cases Server.convert_market_rate (100 * r - m) "EUR" "USD" fp <;> rfl
  · intro fp r
    simp [Server.rentability, Server.convert_market_rate, Option.map_map]
  · intro fp r fc tc h1 h2
    simp [Server.rentability, h1, h2]
  · simp +decide only [Server.rentability, Server.convert_market_rate, dictFind,
      List.find?, Option.map]
    norm_num
  · simp only [round6]
    rw [show ((-8 : ℚ) * 1000000) = ((-8000000 : ℤ) : ℚ) by norm_num, round_intCast]
    norm_num
  · intro H dt item d w h
    simp only [Server.normalizeItem, Option.bind_eq_bind, Option.bind_eq_some,
      Option.some.injEq, Prod.mk.injEq] at h
    obtain ⟨trade, htrade, wrows, hwrows, priceEUR, hprice, renta, hrenta, value, hvalue,
      hd, hw⟩ := h
    refine ⟨renta, ?_, ?_⟩
    · simpa using hrenta
    · rfl

/-- Witness for C2: a swap between two non-EUR currencies keeps the
default gain `100*rate - 100`. -/
theorem c2_witness :
    Server.rentability 100 "SOL" "MAT" [] 2 = some 100 := by
  have h := c2_rentability_spec.2.2.1 [] 2 "SOL" "MAT" (by decide) (by decide)
  rw [h]
  norm_num

/-- Counterexample for C2: for the pair (EUR, SOL) — not one of
(EUR,USD)/(USD,EUR) — the claim demands the default gain
`100*1 - 100 = 0`, but `rentability` runs the market-comparison branch
and returns -100. -/
theorem c2_counterexample :
    Server.rentability 100 "EUR" "SOL" [("EUR", 2)] 1 = some (-100) ∧
    (100 * (1 : ℚ) - 100 = 0) ∧ ((-100 : ℚ) ≠ 0) := by
  refine ⟨?_, by norm_num, by norm_num⟩
  simp +decide only [Server.rentability, Server.convert_market_rate, dictFind,
    List.find?, Option.map]
  norm_num

/-- Claim C3 (amended): `wallet_value` sums, for each supported chain in
{"137","solana"}, exactly the entries whose first colon-segment is the
chain and whose last three characters are "EUR"/"USD"; the chain total is
`USD_sum + convert_market_rate(EUR_sum, "EUR", "USD", rates)`, i.e.
`USD_sum + EUR_sum * rates["EUR"]`; the grand total is the exact,
un-rounded sum of the per-chain totals; unsupported chains never affect
any sum and an empty wallet yields all-zero totals. -/
theorem c3_wallet_value_spec :
    (∀ (w fp : List (String × ℚ)) (r : ℚ), dictFind fp "EUR" = some r →
       Server.wallet_value w fp =
         some ⟨⟨Server.eurSum w "137", Server.usdSum w "137",
                Server.usdSum w "137" + Server.eurSum w "137" * r⟩,
               ⟨Server.eurSum w "solana", Server.usdSum w "solana",
                Server.usdSum w "solana" + Server.eurSum w "solana" * r⟩,
               (Server.usdSum w "137" + Server.eurSum w "137" * r) +
                 (Server.usdSum w "solana" + Server.eurSum w "solana" * r)⟩) ∧
    (∀ (fp : List (String × ℚ)) (r : ℚ), dictFind fp "EUR" = some r →
       Server.wallet_value [] fp = some ⟨⟨0, 0, 0⟩, ⟨0, 0, 0⟩, 0⟩) ∧
    (∀ (w fp : List (String × ℚ)) (k : String) (q : ℚ),
       firstSeg k ≠ "137" → firstSeg k ≠ "solana" →
       Server.wallet_value (w ++ [(k, q)]) fp = Server.wallet_value w fp) ∧
    (Server.wallet_value [("137:0xA:EUR", 10), ("137:0xA:USD", 5)] [("EUR", 11/10)] =
       some ⟨⟨10, 5, 16⟩, ⟨0, 0, 0⟩, 16⟩) := by
  have key : ∀ (w fp : List (String × ℚ)) (r : ℚ), dictFind fp "EUR" = some r →
      Server.wallet_value w fp =
        some ⟨⟨Server.eurSum w "137", Server.usdSum w "137",
               Server.usdSum w "137" + Server.eurSum w "137" * r⟩,
              ⟨Server.eurSum w "solana", Server.usdSum w "solana",
               Server.usdSum w "solana" + Server.eurSum w "solana" * r⟩,
              (Server.usdSum w "137" + Server.eurSum w "137" * r) +
                (Server.usdSum w "solana" + Server.eurSum w "solana" * r)⟩ := by
    intro w fp r hr
    simp [Server.wallet_value, Server.convert_market_rate, hr]
  refine ⟨key, ?_, ?_, ?_⟩
  · intro fp r hr
    rw [key [] fp r hr]
    simp [Server.eurSum, Server.usdSum, Server.chainSub]
  · intro w fp k q h1 h2
    have hsub : ∀ c : String, firstSeg k ≠ c →
        Server.chainSub (w ++ [(k, q)]) c = Server.chainSub w c := by
      intro c hc
      simp [Server.chainSub, List.filter_append, hc]
    simp only [Server.wallet_value, Server.eurSum, Server.usdSum,
      hsub "137" h1, hsub "solana" h2]
  · simp +decide only [Server.wallet_value, Server.eurSum, Server.usdSum,
      Server.chainSub, Server.convert_market_rate, dictFind,
      List.filter, List.find?, List.map, List.sum]
    norm_num

/-- Witness for C3: the claim's own example, obtained from the theorem at
the table storing the EUR→USD rate 1.1 under "EUR". -/
theorem c3_witness :
    Server.wallet_value [("137:0xA:EUR", 10), ("137:0xA:USD", 5)] [("EUR", 11/10)] =
      some ⟨⟨Server.eurSum [("137:0xA:EUR", (10:ℚ)), ("137:0xA:USD", 5)] "137",
             Server.usdSum [("137:0xA:EUR", (10:ℚ)), ("137:0xA:USD", 5)] "137",
             Server.usdSum [("137:0xA:EUR", (10:ℚ)), ("137:0xA:USD", 5)] "137" +
               Server.eurSum [("137:0xA:EUR", (10:ℚ)), ("137:0xA:USD", 5)] "137" * (11/10)⟩,
            ⟨Server.eurSum [("137:0xA:EUR", (10:ℚ)), ("137:0xA:USD", 5)] "solana",
             Server.usdSum [("137:0xA:EUR", (10:ℚ)), ("137:0xA:USD", 5)] "solana",
             Server.usdSum [("137:0xA:EUR", (10:ℚ)), ("137:0xA:USD", 5)] "solana" +
               Server.eurSum [("137:0xA:EUR", (10:ℚ)), ("137:0xA:USD", 5)] "solana" * (11/10)⟩,
            (Server.usdSum [("137:0xA:EUR", (10:ℚ)), ("137:0xA:USD", 5)] "137" +
               Server.eurSum [("137:0xA:EUR", (10:ℚ)), ("137:0xA:USD", 5)] "137" * (11/10)) +
              (Server.usdSum [("137:0xA:EUR", (10:ℚ)), ("137:0xA:USD", 5)] "solana" +
               Server.eurSum [("137:0xA:EUR", (10:ℚ)), ("137:0xA:USD", 5)] "solana" * (11/10))⟩ :=
  c3_wallet_value_spec.1 [("137:0xA:EUR", (10:ℚ)), ("137:0xA:USD", 5)] [("EUR", 11/10)]
    (11/10) (by simp [dictFind])

/-- Counterexample for C3: the Server's `wallet_value` does not round the
grand total to 6 decimals — with a single EUR entry of 1 and rate
`rates["EUR"] = 1/10^7` the grand total is `1/10^7`, whereas its
6-decimal rounding is 0. -/
theorem c3_counterexample :
    Server.wallet_value [("137:a:EUR", 1)] [("EUR", 1/10000000)] =
      some ⟨⟨1, 0, 1/10000000⟩, ⟨0, 0, 0⟩, 1/10000000⟩ ∧
    round6 (1/10000000 + 0) ≠ (1/10000000 : ℚ) := by
  constructor
  · simp +decide only [Server.wallet_value, Server.eurSum, Server.usdSum,
      Server.chainSub, Server.convert_market_rate, dictFind,
      List.filter, List.find?, List.map, List.sum]
    norm_num
  · simp only [round6]
    norm_num
    rw [show round ((1:ℚ)/10) = 0 from by
      rw [round_eq]
      norm_num]
    norm_num

/-- The well-formed example item normalizes successfully: every dict
lookup hits and both rentability branches are skipped (USD→USD pair). -/
theorem goodItem_isSome :
    (Server.normalizeItem Server.hashStub 0 Server.goodItem).isSome = true := by
  simp +decide [Server.normalizeItem, Server.goodItem, Server.rentability,
    Server.convert_market_rate, Server.wallet_value, Server.eurSum, Server.usdSum,
    Server.chainSub, dictFind, store, last3, firstSeg]

/-- The malformed example item fails normalization at its missing
"trade" payload. -/
theorem badItem_none (H : Server.WalletData → String) (dt : ℤ) :
    Server.normalizeItem H dt Server.badItem = none := rfl

/-- Claim C4 (amended): the Client's export loop behaves exactly as the
claim states, for any threshold `t ≥ 1`: it slices off the first `t`
records into one export file each while at least `t` remain (a buffer of
25 with threshold 10 gives 2 files and a persisted remainder of 5, and a
buffer below the threshold gives zero files and the unmodified buffer).
The Compacter's `DataExporter.export_data` — also cited by the claim —
does not repeat: one run writes at most one export, and only when
strictly more than `export_limit` records are buffered. -/
theorem c4_export_spec :
    (∀ (α : Type) (t : Nat) (buf : List α), buf.length < t →
       exportLoop t buf = ([], buf)) ∧
    (∀ (α : Type) (t : Nat) (buf : List α),
       (exportLoop t buf).1.length = buf.length / t ∧
       (∀ g ∈ (exportLoop t buf).1, g.length = t) ∧
       (exportLoop t buf).2.length = buf.length % t ∧
       ((exportLoop t buf).1).flatten ++ (exportLoop t buf).2 = buf) ∧
    ((exportLoop 10 (List.range 25)).1.length = 2 ∧
     (exportLoop 10 (List.range 25)).2.length = 5) ∧
    (∀ (α β : Type) (limit : Nat) (tr : List α) (wl : List β),
       (tr.length ≤ limit →
          Compacter.DataExporter.export_data limit tr wl = ((tr, wl), 0)) ∧
       (limit < tr.length →
          Compacter.DataExporter.export_data limit tr wl =
            ((tr.drop limit, wl.drop limit), 1))) := by
  refine ⟨fun α t buf h => exportLoop_of_lt t buf h,
          fun α t buf => ⟨exportLoop_count t buf, exportLoop_sizes t buf,
                          exportLoop_rem t buf, exportLoop_join t buf⟩,
          ⟨?_, ?_⟩, ?_⟩
  · rw [exportLoop_count]
    simp
  · rw [exportLoop_rem]
    simp
  · intro α β limit tr wl
    constructor
    · intro h
      rw [Compacter.DataExporter.export_data, if_neg (by omega)]
    · intro h
      rw [Compacter.DataExporter.export_data, if_pos h]

/-- Witness for C4: a buffer below the threshold is left untouched and
yields zero export files. -/
theorem c4_witness :
    exportLoop 10 ([0, 1, 2] : List Nat) = ([], [0, 1, 2]) :=
  c4_export_spec.1 Nat 10 [0, 1, 2] (by norm_num)

/-- Counterexample for C4: one run of the Compacter's `export_data` on a
buffer of 25 records with threshold 10 writes exactly one export file
(the claim demands 2) and leaves 15 records (the claim demands 5). -/
theorem c4_counterexample :
    (Compacter.DataExporter.export_data 10 (List.range 25) (List.range 25)).2 = 1 ∧
    (1 : Nat) ≠ 2 ∧
    (Compacter.DataExporter.export_data 10 (List.range 25) (List.range 25)).1.1.length = 15 ∧
    (15 : Nat) ≠ 5 := by
  refine ⟨?_, by omega, ?_, by omega⟩ <;>
    simp [Compacter.DataExporter.export_data]

/-- Claim C5 (amended): with drain disabled, compaction merges files in
groups of 10 until fewer than 10 remain, and a run on fewer than 10
files performs zero merges and deletes no files.  With drain enabled the
group size is fixed once, at entry, to the file count clamped into
1..10: when 1..10 files are present they are all consumed by exactly one
merge (never a zero-file merge), but with more than 10 files the run
behaves exactly like a drain-disabled one and still leaves
`count mod 10` files un-merged (23 files leave 3; no final 3-file merge
happens). -/
theorem c5_compaction_spec :
    (∀ (α : Type) (files : List α), files.length < 10 →
       Client.compact_csv_files false files = ([], files)) ∧
    (∀ (α : Type) (files : List α),
       (Client.compact_csv_files false files).1.length = files.length / 10 ∧
       (∀ g ∈ (Client.compact_csv_files false files).1, g.length = 10) ∧
       (Client.compact_csv_files false files).2.length = files.length % 10) ∧
    (∀ (α : Type) (files : List α), 0 < files.length → files.length ≤ 10 →
       Client.compact_csv_files true files = ([files], [])) ∧
    (∀ (α : Type), Client.compact_csv_files true ([] : List α) = ([], [])) ∧
    (∀ (α : Type) (files : List α), 10 < files.length →
       Client.compact_csv_files true files = Client.compact_csv_files false files) := by
  refine ⟨?_, ?_, ?_, ?_, ?_⟩
  · intro α files h
    rw [Client.compact_csv_files, compactNum_false]
    exact exportLoop_of_lt 10 files h
  · intro α files
    rw [Client.compact_csv_files, compactNum_false]
    exact ⟨exportLoop_count 10 files, exportLoop_sizes 10 files, exportLoop_rem 10 files⟩
  · intro α files h0 h10
    rw [Client.compact_csv_files, compactNum_true_le files.length h0 h10]
    exact exportLoop_all files h0
  · intro α
    rw [Client.compact_csv_files]
    exact exportLoop_of_lt _ [] (by simp [Client.compactNum])
  · intro α files h
    rw [Client.compact_csv_files, Client.compact_csv_files,
      compactNum_true_gt files.length h, compactNum_false]

theorem receiveLoop_eq (H : Server.WalletData → String) (dt : ℤ)
    (items : List Server.RawItem) (tr : List Server.TradeDoc)
    (wl : List Server.WalletDoc) :
    Server.receiveLoop H dt items (tr, wl) =
      ((tr ++ (Server.okDocs H dt items).map Prod.fst,
        wl ++ (Server.okDocs H dt items).map Prod.snd),
       items.all (fun i => (Server.normalizeItem H dt i).isSome)) := by
  induction items generalizing tr wl with
  | nil => simp [Server.receiveLoop, Server.okDocs]
  | cons i rest ih =>
    cases h : Server.normalizeItem H dt i with
    | none =>
      simp [Server.receiveLoop, Server.okDocs, h]
    | some p =>
      obtain ⟨d, w⟩ := p
      rw [Server.receiveLoop]
      simp only [h]
      rw [ih]
      simp [Server.okDocs, h, List.takeWhile_cons]

/-- Witness for C5: a drain-enabled run on 3 files performs exactly one
merge consuming all of them. -/
theorem c5_witness :
    Client.compact_csv_files true ([7, 8, 9] : List Nat) = ([[7, 8, 9]], []) :=
  c5_compaction_spec.2.2.1 Nat [7, 8, 9] (by norm_num) (by norm_num)

/-- Counterexample for C5: a drain-enabled run on 23 files performs two
10-file merges and leaves 3 files un-merged — the claim's "final 3-file
merge" does not happen and un-merged input remains. -/
theorem c5_counterexample :
    (Client.compact_csv_files true (List.range 23)).1.length = 2 ∧
    (Client.compact_csv_files true (List.range 23)).2.length = 3 ∧
    (3 : Nat) ≠ 0 := by
  have h : Client.compact_csv_files true (List.range 23) = exportLoop 10 (List.range 23) := by
    rw [Client.compact_csv_files, compactNum_true_gt]
    simp
  rw [h, exportLoop_count, exportLoop_rem]
  simp

/-- Claim C7 (amended): the stored wallet id is a hash of the wallet's
`data` payload only — normalizing the same payload at two different
request timestamps yields the same `_id` and the same `data` (only the
`timestamp` field differs).  But the Server's `receive_json` inserts the
wallet document unconditionally, so ingesting the same payload twice
stores two documents with identical content: the dedup the claim
describes does not exist in this variant (the Exposer variant's
`insert_wallet` does check `_id` before inserting). -/
theorem c7_wallet_id_spec :
    (∀ (H : Server.WalletData → String) (dt1 dt2 : ℤ) (item : Server.RawItem),
       (Server.normalizeItem H dt1 item).map (fun p => p.2._id) =
         (Server.normalizeItem H dt2 item).map (fun p => p.2._id) ∧
       (Server.normalizeItem H dt1 item).map (fun p => p.2.data) =
         (Server.normalizeItem H dt2 item).map (fun p => p.2.data)) ∧
    (∀ (H : Server.WalletData → String) (dt : ℤ) (item : Server.RawItem)
       (d : Server.TradeDoc) (w : Server.WalletDoc)
       (tr : List Server.TradeDoc) (wl : List Server.WalletDoc),
       Server.normalizeItem H dt item = some (d, w) →
       Server.receiveLoop H dt [item, item] (tr, wl) =
         ((tr ++ [d, d], wl ++ [w, w]), true)) := by
  constructor
  · intro H dt1 dt2 item
    have key : ∀ dta dtb : ℤ,
        (Server.normalizeItem H dta item).map (fun p => (p.2._id, p.2.data)) =
          (Server.normalizeItem H dtb item).map (fun p => (p.2._id, p.2.data)) := by
      intro dta dtb
      simp only [Server.normalizeItem, Option.bind_eq_bind]
      cases item.trade with
      | none => rfl
      | some trade =>
        cases item.wallet with
        | none => rfl
        | some wrows =>
          simp only [Option.some_bind]
          cases dictFind trade.swapConfig.fiatPrices "USD" with
          | none => rfl
          | some priceEUR =>
            simp only [Option.some_bind]
            cases Server.rentability 100
                (last3 (trade.pair.from_.chain ++ ":" ++ trade.pair.from_.token ++ ":"
                  ++ trade.pair.from_.currency))
                (last3 (trade.pair.to_.chain ++ ":" ++ trade.pair.to_.token ++ ":"
                  ++ trade.pair.to_.currency))
                [("USD", 1), ("EUR", priceEUR), ("SOL", trade.solanaPrice),
                  ("MAT", trade.maticPrice)]
                (round6 trade.swapConfig.exchangeRate) with
            | none => rfl
            | some renta =>
              simp only [Option.some_bind]
              cases Server.wallet_value
                  (List.foldl
                    (fun m e =>
                      store m (e.chain ++ ":" ++ e.address ++ ":" ++ e.currency)
                        (round6 e.amount)) [] wrows)
                  [("USD", 1), ("EUR", priceEUR), ("SOL", trade.solanaPrice),
                    ("MAT", trade.maticPrice)] with
              | none => rfl
              | some value => rfl
    constructor
    · have h := key dt1 dt2
      cases h1 : Server.normalizeItem H dt1 item with
      | none =>
        rw [h1] at h
        cases h2 : Server.normalizeItem H dt2 item with
        | none => simp
        | some p2 =>
          rw [h2] at h
          simp at h
      | some p1 =>
        rw [h1] at h
        cases h2 : Server.normalizeItem H dt2 item with
        | none =>
          rw [h2] at h
          simp at h
        | some p2 =>
          rw [h2] at h
          simp at h ⊢
          exact h.1
    · have h := key dt1 dt2
      cases h1 : Server.normalizeItem H dt1 item with
      | none =>
        rw [h1] at h
        cases h2 : Server.normalizeItem H dt2 item with
        | none => simp
        | some p2 =>
          rw [h2] at h
          simp at h
      | some p1 =>
        rw [h1] at h
        cases h2 : Server.normalizeItem H dt2 item with
        | none =>
          rw [h2] at h
          simp at h
        | some p2 =>
          rw [h2] at h
          simp at h ⊢
          exact h.2
  · intro H dt item d w tr wl h
    simp only [Server.receiveLoop, h]
    simp [List.append_assoc]

/-- Witness for C7: the double ingestion of the concrete well-formed
item stores its wallet document twice. -/
theorem c7_witness :
    Server.receiveLoop Server.hashStub 0 [Server.goodItem, Server.goodItem]
      ([], []) =
      (([(Option.get _ goodItem_isSome).1, (Option.get _ goodItem_isSome).1],
        [(Option.get _ goodItem_isSome).2, (Option.get _ goodItem_isSome).2]), true) := by
  have h := c7_wallet_id_spec.2 Server.hashStub 0 Server.goodItem
    (Option.get _ goodItem_isSome).1 (Option.get _ goodItem_isSome).2 [] []
    (by
      rw [Prod.mk.eta]
      exact (Option.some_get goodItem_isSome).symm)
  simpa using h

/-- Counterexample for C7: after ingesting the same payload twice, the
wallet collection holds two documents and they are equal — "identical
wallet states by content are never stored twice" is false for the
Server's `receive_json`. -/
theorem c7_counterexample :
    (Server.receiveLoop Server.hashStub 0 [Server.goodItem, Server.goodItem]
        ([], [])).1.2.length = 2 ∧
    (Server.receiveLoop Server.hashStub 0 [Server.goodItem, Server.goodItem]
        ([], [])).1.2.get? 0 =
      (Server.receiveLoop Server.hashStub 0 [Server.goodItem, Server.goodItem]
        ([], [])).1.2.get? 1 := by
  obtain ⟨⟨d, w⟩, hp⟩ := Option.isSome_iff_exists.mp goodItem_isSome
  simp [Server.receiveLoop, hp]

/-- Claim C8 (amended): the Server's `receive_json` performs no up-front
validation; the per-item loop normalizes and inserts as it goes, so a
batch is accepted (`true`) iff every item normalizes, and after the run
the buffer has gained exactly the documents of the longest prefix of
well-formed items — a malformed item aborts the request (a rejection)
but the documents of the items before it are already inserted, so the
stored state is in general *not* unchanged on error. -/
theorem c8_batch_spec :
    ∀ (H : Server.WalletData → String) (dt : ℤ) (items : List Server.RawItem)
      (tr : List Server.TradeDoc) (wl : List Server.WalletDoc),
      Server.receiveLoop H dt items (tr, wl) =
        ((tr ++ (Server.okDocs H dt items).map Prod.fst,
          wl ++ (Server.okDocs H dt items).map Prod.snd),
         items.all (fun i => (Server.normalizeItem H dt i).isSome)) :=
  fun H dt items tr wl => receiveLoop_eq H dt items tr wl

/-- Counterexample for C8: the batch [well-formed, malformed] is
rejected (`false`), yet one trade document from it has been inserted —
the stored state is not unchanged on error. -/
theorem c8_counterexample :
    (Server.receiveLoop Server.hashStub 0 [Server.goodItem, Server.badItem]
        ([], [])).2 = false ∧
    (Server.receiveLoop Server.hashStub 0 [Server.goodItem, Server.badItem]
        ([], [])).1.1.length = 1 ∧
    (1 : Nat) ≠ 0 := by
  obtain ⟨⟨d, w⟩, hp⟩ := Option.isSome_iff_exists.mp goodItem_isSome
  refine ⟨?_, ?_, by omega⟩ <;>
    simp [Server.receiveLoop, hp, badItem_none]

/-- Claim C10: the authorized GET endpoint is a destructive take-all:
it returns every buffered trade and wallet record with their counts,
empties both collections, and a second consecutive retrieval returns
zero records. -/
theorem c10_get_all_spec :
    ∀ db : Server.SrvDb,
      Server.get_all_json true db =
        (⟨[], []⟩,
         some ⟨db.trades.length, db.wallets.length, db.trades, db.wallets⟩) ∧
      (Server.get_all_json true (Server.get_all_json true db).1).2 =
        some ⟨0, 0, [], []⟩ := by
  intro db
  exact ⟨rfl, rfl⟩

/-- Claim C6 (amended): every archival merge step writes one merged
compact file, adds it to the run-scoped zip archive — creating the
archive, or appending to it when it already exists — and then deletes
the plaintext merged file, so the file is gone and the archive remains;
when drain (force) mode is off, the names probe forward with suffixes
_1, _2, ... so the chosen names never collide with a pre-existing
archive or compact file; in force mode, however, probing is skipped
entirely (see the counterexample). -/
theorem c6_archive_spec :
    (∀ (fs : Client.Fs) (pfx dateId : String) (force : Bool),
       (Client.archiveStep fs pfx dateId force).2.combinedCsv ∉
           (Client.archiveStep fs pfx dateId force).1.files ∧
       (Client.archiveStep fs pfx dateId force).2.zipPath ∈
           (Client.archiveStep fs pfx dateId force).1.files ∧
       dictFind (Client.archiveStep fs pfx dateId force).1.zipContent
           (Client.archiveStep fs pfx dateId force).2.zipPath =
         some (if (Client.archiveStep fs pfx dateId force).2.zipAppended then
                 (dictFind fs.zipContent
                     (Client.archiveStep fs pfx dateId force).2.zipPath).getD []
                   ++ [(Client.archiveStep fs pfx dateId force).2.combinedCsv]
               else
                 [(Client.archiveStep fs pfx dateId force).2.combinedCsv])) ∧
    (∀ (fs : Client.Fs) (pfx dateId : String),
       (Client.archiveStep fs pfx dateId false).2.overwroteCsv = false ∧
       (Client.archiveStep fs pfx dateId false).2.zipAppended = false ∧
       (Client.archiveStep fs pfx dateId false).2.combinedCsv ∉ fs.files ∧
       (Client.archiveStep fs pfx dateId false).2.zipPath ∉ fs.files) := by
  constructor
  · intro fs pfx dateId force
    simp only [Client.archiveStep]
    refine ⟨?_, ?_, ?_⟩
    · simp [List.mem_filter]
    · rw [List.mem_filter]
      constructor
      · split_ifs <;> simp_all
      · simp
    · rw [dictFind_store]
  · intro fs pfx dateId
    have hfree := probeIndex_free fs.files pfx dateId
    rw [Client.nameHit, Bool.or_eq_false_iff] at hfree
    obtain ⟨h1, h2⟩ := hfree
    have h1m : Client.FsName.compactCsv pfx dateId
        (Client.probeIndex fs.files pfx dateId false) ∉ fs.files := by
      simpa using h1
    have h2m : Client.FsName.archiveZip dateId
        (Client.probeIndex fs.files pfx dateId false) ∉ fs.files := by
      simpa using h2
    simp only [Client.archiveStep]
    refine ⟨?_, ?_, ?_, ?_⟩
    · simpa using h1m
    · rw [if_neg (by simpa using h1m)]
      simp [h2m]
    · exact h1m
    · exact h2m

/-- Witness for C6: a non-force merge step over an empty directory uses
the base names, creates the archive with the merged file as its only
entry, deletes the merged file, and overwrites nothing. -/
theorem c6_witness :
    (Client.archiveStep ⟨[], []⟩ "trades" "d" false).2.combinedCsv ∉
        (Client.archiveStep ⟨[], []⟩ "trades" "d" false).1.files ∧
    (Client.archiveStep ⟨[], []⟩ "trades" "d" false).2.overwroteCsv = false := by
  have ha := (c6_archive_spec.1 ⟨[], []⟩ "trades" "d" false).1
  have hb := (c6_archive_spec.2 ⟨[], []⟩ "trades" "d").1
  exact ⟨ha, hb⟩

/-- Counterexample for C6: in force (drain) mode the probing loop is
skipped — `while ... and keep_going != 'force'` — so a merge step reuses
the base name and overwrites a pre-existing compact file with the same
run id, contradicting the claim's "never overwritten". -/
theorem c6_counterexample :
    (Client.archiveStep
        ⟨[Client.FsName.compactCsv "wallets" "2024-01-01" 0], []⟩
        "wallets" "2024-01-01" true).2.overwroteCsv = true ∧
    (Client.archiveStep
        ⟨[Client.FsName.compactCsv "wallets" "2024-01-01" 0], []⟩
        "wallets" "2024-01-01" true).2.combinedCsv =
      Client.FsName.compactCsv "wallets" "2024-01-01" 0 := by
  constructor <;> rfl

/-- Claim C9 (amended): for every batch and every enumeration `order` of
the set of flattened column names (Python iterates that set in an
unspecified order — it is not sorted, see the counterexample), the
output has `order` as its header row, one row per record aligned to the
header, the header contains exactly the union of the records' flattened
column names, a record's row entry is empty (`none`) exactly when the
column is missing from its flat mapping, and a present value is looked
up from the record's flat mapping — never dropped or misaligned. -/
theorem c9_csv_spec :
    ∀ (json_data : List Client.JValue) (order : List String),
      order.Perm (Client.unionKeys json_data) →
      (Client.CSVConverter.convert order json_data).1 = order ∧
      (∀ f : String, f ∈ order ↔
         ∃ r ∈ json_data, f ∈ (Client.flatten_json r).map Prod.fst) ∧
      (Client.CSVConverter.convert order json_data).2.length = json_data.length ∧
      (∀ row ∈ (Client.CSVConverter.convert order json_data).2,
         row.length = order.length) ∧
      (∀ r ∈ json_data,
         (order.map (fun f => dictFind (Client.flatten_json r) f)) ∈
           (Client.CSVConverter.convert order json_data).2) ∧
      (∀ (r : Client.JValue) (f : String),
         dictFind (Client.flatten_json r) f = none ↔
           f ∉ (Client.flatten_json r).map Prod.fst) ∧
      (∀ (r : Client.JValue) (f v : String),
         dictFind (Client.flatten_json r) f = some v →
           (f, v) ∈ Client.flatten_json r) := by
  intro json_data order hperm
  refine ⟨rfl, ?_, ?_, ?_, ?_, ?_, ?_⟩
  · intro f
    rw [hperm.mem_iff]
    simp only [Client.unionKeys, List.mem_dedup, List.mem_flatten, List.mem_map]
    constructor
    · rintro ⟨l, ⟨r', ⟨rr, hrr, hflat⟩, hmap⟩, hf⟩
      subst hflat
      subst hmap
      exact ⟨rr, hrr, by simpa using hf⟩
    · rintro ⟨rr, hrr, hf⟩
      exact ⟨_, ⟨_, ⟨rr, hrr, rfl⟩, rfl⟩, by simpa using hf⟩
  · simp [Client.CSVConverter.convert]
  · intro row hrow
    simp only [Client.CSVConverter.convert, List.mem_map] at hrow
    obtain ⟨r, hr, hrow⟩ := hrow
    subst hrow
    simp
  · intro r hr
    simp only [Client.CSVConverter.convert, List.map_map]
    exact List.mem_map.mpr ⟨r, hr, rfl⟩
  · intro r f
    exact dictFind_eq_none_iff (Client.flatten_json r) f
  · intro r f v h
    exact dictFind_mem (Client.flatten_json r) f v h

/-- Witness for C9: a one-record batch with the single column "a". -/
theorem c9_witness :
    (Client.CSVConverter.convert ["a"]
        [Client.JValue.obj [("a", Client.JValue.scalar "1")]]).1 = ["a"] ∧
    (Client.CSVConverter.convert ["a"]
        [Client.JValue.obj [("a", Client.JValue.scalar "1")]]).2.length = 1 := by
  have hu : Client.unionKeys [Client.JValue.obj [("a", Client.JValue.scalar "1")]]
      = ["a"] := by
    simp [Client.unionKeys, Client.flatten_json, Client.flattenV, Client.flattenObj,
      Client.flattenArr, strInit, store]
  have h := c9_csv_spec [Client.JValue.obj [("a", Client.JValue.scalar "1")]] ["a"]
    (by rw [hu])
  exact ⟨h.1, h.2.2.1⟩

/-- Counterexample for C9: the source hands the raw Python `set` of
fieldnames to `csv.DictWriter` without sorting (unlike
`compact_csv_files`, which sorts).  The set-iteration order ["b", "a"]
is an admissible enumeration of the union {a, b}, and the header it
produces is not the sorted union ["a", "b"]. -/
theorem c9_counterexample :
    (Client.CSVConverter.convert ["b", "a"]
        [Client.JValue.obj [("b", Client.JValue.scalar "1")],
         Client.JValue.obj [("a", Client.JValue.scalar "2")]]).1 = ["b", "a"] ∧
    List.Perm ["b", "a"]
      (Client.unionKeys
        [Client.JValue.obj [("b", Client.JValue.scalar "1")],
         Client.JValue.obj [("a", Client.JValue.scalar "2")]]) ∧
    ["b", "a"] ≠ ["a", "b"] := by
  have hu : Client.unionKeys
      [Client.JValue.obj [("b", Client.JValue.scalar "1")],
       Client.JValue.obj [("a", Client.JValue.scalar "2")]] = ["b", "a"] := by
    simp [Client.unionKeys, Client.flatten_json, Client.flattenV, Client.flattenObj,
      Client.flattenArr, strInit, store]
  refine ⟨rfl, ?_, by decide⟩
  rw [hu]

end Logger
